import Mathlib

/-!
Verification of the EPUB pagination and reading-session core of the Fumikari
e-book reader, shallowly embedded from `src/components/DirectEpubReader.tsx`.

The DOM-dependent parts are abstracted as parameters:
* the off-screen measurement `tempContainer.scrollHeight` after assigning a
  tentative accumulator string to `innerHTML` is an arbitrary function
  `measure : String → Nat`;
* the page-height budget `Math.floor((window.innerHeight - 240) * 0.92)` is an
  arbitrary `pageHeight : Nat`;
* a chapter carries, besides its title and body `innerHTML`, the list of
  `outerHTML` strings of its block-level elements, i.e. the result of
  `querySelectorAll('p, div, h1, h2, h3, h4, h5, h6, blockquote, pre, li')`
  on the parsed chapter content, in document order.

JavaScript numbers are embedded as `Nat`/`Int` where the code only ever holds
integers, and as `ℚ` for fractional progress values.
-/

namespace Fumikari

/-- A chapter extracted from the EPUB spine by `parseEpub`: derived title,
body `innerHTML`, and the block-level elements the paginator later finds in
that content (their `outerHTML` strings, in document order). -/
structure EpubChapter where
  title : String
  content : String
  blocks : List String
  deriving Repr, DecidableEq

/-- A page record produced by `splitIntoPages`. -/
structure EpubPage where
  id : String
  content : String
  chapterTitle : String
  pageNumber : Nat
  deriving Repr, DecidableEq

/-- Embedding of the JavaScript test `s.trim() === ''`: true exactly when
every character of `s` is whitespace (in particular true for the empty
string). -/
def trimEmpty (s : String) : Bool := s.data.all Char.isWhitespace

/-- The element list the paginator's inner loop iterates over for one chapter:
the chapter's block-level elements or, when none are found, the single
element `tempDiv` holding the whole chapter content
(`elements.push(tempDiv)`); its `outerHTML` is the content wrapped in the
div tag. -/
def chapterElements (ch : EpubChapter) : List String :=
  if ch.blocks.isEmpty then ["<div>" ++ ch.content ++ "</div>"] else ch.blocks

/-- The page record pushed by `splitIntoPages`: its id is `page-(n+1)` where
`n` is the number of pages already produced across all chapters
(`pages.length + 1`). -/
def mkPage (pagesSoFar : Nat) (content title : String) (pageNumber : Nat) : EpubPage :=
  { id := "page-" ++ toString (pagesSoFar + 1)
    content := content
    chapterTitle := title
    pageNumber := pageNumber }

/-- One iteration of the element loop of `splitIntoPages`, over the state
(pages produced so far, `currentPageContent`, `pageNumber`): append the
element markup tentatively, measure, and close the page exactly when the
measured height exceeds the budget and the accumulator was not
whitespace-only (`tempContainer.scrollHeight > pageHeight &&
currentPageContent.trim() !== ''`). -/
def splitStep (measure : String → Nat) (pageHeight : Nat) (title : String)
    (st : List EpubPage × String × Nat) (e : String) : List EpubPage × String × Nat :=
  match st with
  | (pages, acc, pn) =>
    if pageHeight < measure (acc ++ e) ∧ trimEmpty acc = false then
      (pages ++ [mkPage pages.length acc title pn], e, pn + 1)
    else
      (pages, acc ++ e, pn)

/-- End of the per-chapter loop of `splitIntoPages`: flush the remaining
accumulator as a final page of the chapter when it is not whitespace-only. -/
def flushChapter (st : List EpubPage × String × Nat) (title : String) : List EpubPage :=
  match st with
  | (pages, acc, pn) =>
    if trimEmpty acc = false then pages ++ [mkPage pages.length acc title pn]
    else pages

/-- Processing of one chapter inside `splitIntoPages`: run the element loop
from an empty accumulator and page-local ordinal 1, then flush. -/
def splitChapter (measure : String → Nat) (pageHeight : Nat)
    (pages0 : List EpubPage) (ch : EpubChapter) : List EpubPage :=
  flushChapter
    ((chapterElements ch).foldl (splitStep measure pageHeight ch.title) (pages0, "", 1))
    ch.title

/-- `splitIntoPages(chapters, settings)` from `DirectEpubReader.tsx`: greedy
block accumulation over every chapter in order, into one page list. -/
def splitIntoPages (measure : String → Nat) (pageHeight : Nat)
    (chapters : List EpubChapter) : List EpubPage :=
  chapters.foldl (splitChapter measure pageHeight) []

/-- Concatenation of a list of markup strings in order. -/
def concatAll : List String → String
  | [] => ""
  | s :: rest => s ++ concatAll rest

/-- The markup of a page sequence: the concatenation of the pages'
`content` fields in order. -/
def pagesMarkup (ps : List EpubPage) : String := concatAll (ps.map EpubPage.content)

/-- The markup of the block-level elements of a chapter sequence,
concatenated in order. -/
def blocksMarkup (chs : List EpubChapter) : String :=
  concatAll (chs.map fun ch => concatAll ch.blocks)

/-- The per-press index step of the navigation handlers: 2 in double-page
view, 1 otherwise. -/
def navIncrement (doublePageView : Bool) : Nat := if doublePageView then 2 else 1

/-- `goToNext`: advance by the increment when the target stays within
`pages.length - 1`, else leave the index unchanged. The comparison
`currentPageIndex + increment <= pages.length - 1` is over JavaScript
numbers, embedded as `Int` (so with an empty page list, where the bound is
`-1`, the guard is false and the call is a no-op). -/
def goToNext (doublePageView : Bool) (pageCount currentPageIndex : Nat) : Nat :=
  if (currentPageIndex : Int) + navIncrement doublePageView ≤ (pageCount : Int) - 1 then
    min (currentPageIndex + navIncrement doublePageView) (pageCount - 1)
  else currentPageIndex

/-- `goToPrev`: retreat by the decrement when the target is still at least
0, else leave the index unchanged (`Math.max(currentPageIndex - decrement,
0)` under the guard `currentPageIndex - decrement >= 0`). -/
def goToPrev (doublePageView : Bool) (currentPageIndex : Nat) : Nat :=
  if 0 ≤ (currentPageIndex : Int) - navIncrement doublePageView then
    max (currentPageIndex - navIncrement doublePageView) 0
  else currentPageIndex

/-- The double-page checkbox `onChange` handler's index update: when the box
is being checked and the current index is odd, step back one page
(`Math.max(0, prev - 1)`); otherwise the index is left unchanged. -/
def doublePageToggleIndex (checked : Bool) (currentPageIndex : Nat) : Nat :=
  if checked = true ∧ currentPageIndex % 2 ≠ 0 then max 0 (currentPageIndex - 1)
  else currentPageIndex

/-- Clamp to the unit interval: `Math.max(0, Math.min(1, x))`. -/
def jsClamp01 (q : ℚ) : ℚ := max 0 (min 1 q)

/-- The argument triple handed to the external `onProgressUpdate` sink. -/
structure ProgressPayload where
  progress : ℚ
  currentCfi : String
  currentPage : Nat
  deriving Repr, DecidableEq

/-- The payload computed identically by `saveProgress` and
`saveProgressImmediately`: fractional progress
`Math.max(0, Math.min(1, pageIndex / totalPages))`, the CFI-like token
`page-(pageIndex+1)`, and the 1-based page number `pageIndex + 1`. -/
def progressPayload (pageIndex totalPages : Nat) : ProgressPayload :=
  { progress := jsClamp01 ((pageIndex : ℚ) / (totalPages : ℚ))
    currentCfi := "page-" ++ toString (pageIndex + 1)
    currentPage := pageIndex + 1 }

/-- The guarded sink invocation both `saveProgress` and
`saveProgressImmediately` make: no invocation at all when no
`onProgressUpdate` callback was provided or `totalPages === 0`; otherwise
the sink receives `progressPayload`. -/
def saveProgressCall (hasCallback : Bool) (pageIndex totalPages : Nat) :
    Option ProgressPayload :=
  if hasCallback = false ∨ totalPages = 0 then none
  else some (progressPayload pageIndex totalPages)

/-- The fields of the `book` prop from which the reader derives its starting
position: the saved 1-based page number (`0` embeds the JavaScript-falsy
absent value) and the saved fractional progress. -/
structure BookRecord where
  currentPage : Nat
  progress : ℚ
  deriving Repr, DecidableEq

/-- The initial `currentPageIndex` computed in `initReader` after
pagination: from the saved page number when `book.currentPage &&
book.currentPage > 1` (converted to a 0-based index), else from the saved
fractional progress when `book.progress && book.progress > 0` (via
`Math.floor(book.progress * epubPages.length)`), else 0; both branches
clamp with `Math.max(0, Math.min(value, epubPages.length - 1))`. A text
settings change runs this very computation again: the re-split effect
clears `initializationRef`, and `initReader` (which lists `textSettings`
among its effect dependencies) re-fetches and re-parses the book, re-splits
the chapters, and recomputes the index from the same memoized `book` prop. -/
def initialPageIndex (book : BookRecord) (pageCount : Nat) : Int :=
  if 1 < book.currentPage then
    max 0 (min ((book.currentPage : Int) - 1) ((pageCount : Int) - 1))
  else if 0 < book.progress then
    max 0 (min (Rat.floor (book.progress * (pageCount : ℚ))) ((pageCount : Int) - 1))
  else 0

/-- A `manifest item` element of the package document: its `id` and `href`
attributes (`getAttribute` returns null, embedded as `none`, for a missing
attribute). -/
structure ManifestItem where
  id : Option String
  href : Option String
  deriving Repr, DecidableEq

/-- A `spine itemref` element of the package document: its `idref`
attribute. -/
structure SpineItem where
  idref : Option String
  deriving Repr, DecidableEq

/-- Outcome of reading and processing one content file of the archive: `ok`
with the chapter record it yields (title from the first title/h1/h2 element
or the ordinal fallback, content from the body `innerHTML`), or `fail` when
reading or processing the entry raised (the catch branch of the chapter
loop). -/
inductive EntryRead where
  | ok (chapter : EpubChapter)
  | fail
  deriving Repr, DecidableEq

/-- The entries of the loaded zip archive, path by path; a path missing
from the list embeds `epub.file(path)` returning null. -/
abbrev Archive := List (String × EntryRead)

/-- Lookup of `epub.file(path)`. -/
def findEntry (archive : Archive) (path : String) : Option EntryRead :=
  (archive.find? fun pr => pr.1 = path).map Prod.snd

/-- Resolution of one spine item in `parseEpub`'s chapter loop: find the
manifest item whose `id` attribute equals the spine item's `idref`, require
its `href`, resolve `basePath + href`, require the archive entry at that
path, and require the read to succeed. Every failure mode yields `none`:
the loop logs a warning and moves to the next spine item. -/
def resolveSpineItem (basePath : String) (manifest : List ManifestItem)
    (archive : Archive) (s : SpineItem) : Option EpubChapter :=
  match manifest.find? fun m => m.id = s.idref with
  | none => none
  | some m =>
    match m.href with
    | none => none
    | some href =>
      match findEntry archive (basePath ++ href) with
      | none => none
      | some EntryRead.fail => none
      | some (EntryRead.ok ch) => some ch

/-- The chapter-extraction loop of `parseEpub`: over the spine in order,
append each successfully resolved chapter. -/
def extractChapters (basePath : String) (manifest : List ManifestItem)
    (archive : Archive) (spine : List SpineItem) : List EpubChapter :=
  spine.foldl
    (fun acc s =>
      match resolveSpineItem basePath manifest archive s with
      | some ch => acc ++ [ch]
      | none => acc)
    []

/-- The end of `parseEpub`: when no chapter at all was extracted the parse
throws the no-readable-chapters error; otherwise the chapter list is
returned. -/
def parseEpubChapters (basePath : String) (manifest : List ManifestItem)
    (archive : Archive) (spine : List SpineItem) : Except String (List EpubChapter) :=
  if extractChapters basePath manifest archive spine = [] then
    Except.error "No readable chapters found in EPUB"
  else Except.ok (extractChapters basePath manifest archive spine)

lemma trimEmpty_append (a b : String) :
    trimEmpty (a ++ b) = (trimEmpty a && trimEmpty b) := by
  simp [trimEmpty, String.data_append, List.all_append]

lemma concatAll_append (l1 l2 : List String) :
    concatAll (l1 ++ l2) = concatAll l1 ++ concatAll l2 := by
  induction l1 with
  | nil => simp [concatAll, String.empty_append]
  | cons s rest ih => simp [concatAll, ih, String.append_assoc]

lemma pagesMarkup_append (p1 p2 : List EpubPage) :
    pagesMarkup (p1 ++ p2) = pagesMarkup p1 ++ pagesMarkup p2 := by
  simp [pagesMarkup, concatAll_append]

lemma splitFold_markup (measure : String → Nat) (pageHeight : Nat) (t : String)
    (elems : List String) :
    ∀ (pages : List EpubPage) (acc : String) (pn : Nat),
      pagesMarkup ((elems.foldl (splitStep measure pageHeight t) (pages, acc, pn)).1) ++
          (elems.foldl (splitStep measure pageHeight t) (pages, acc, pn)).2.1
        = pagesMarkup pages ++ (acc ++ concatAll elems) := by
  induction elems with
  | nil =>
    intro pages acc pn
    simp [concatAll, String.append_empty]
  | cons e es ih =>
    intro pages acc pn
    rw [List.foldl_cons]
    by_cases hc : pageHeight < measure (acc ++ e) ∧ trimEmpty acc = false
    · rw [show splitStep measure pageHeight t (pages, acc, pn) e
          = (pages ++ [mkPage pages.length acc t pn], e, pn + 1) from by
        simp only [splitStep]; rw [if_pos hc]]
      rw [ih]
      rw [pagesMarkup_append]
      simp [pagesMarkup, mkPage, concatAll, String.append_empty, String.append_assoc]
    · rw [show splitStep measure pageHeight t (pages, acc, pn) e
          = (pages, acc ++ e, pn) from by
        simp only [splitStep]; rw [if_neg hc]]
      rw [ih]
      simp [concatAll, String.append_assoc]

lemma splitFold_blank (measure : String → Nat) (pageHeight : Nat) (t : String) :
    ∀ (elems : List String), (∀ e ∈ elems, trimEmpty e = false) →
      ∀ (pages : List EpubPage) (acc : String) (pn : Nat),
        acc = "" ∨ trimEmpty acc = false →
        (elems.foldl (splitStep measure pageHeight t) (pages, acc, pn)).2.1 = "" ∨
          trimEmpty (elems.foldl (splitStep measure pageHeight t) (pages, acc, pn)).2.1
            = false := by
  intro elems
  induction elems with
  | nil =>
    intro _ pages acc pn hacc
    simpa using hacc
  | cons e es ih =>
    intro hel pages acc pn _
    have he : trimEmpty e = false := hel e (by simp)
    have hes : ∀ x ∈ es, trimEmpty x = false := fun x hx => hel x (by simp [hx])
    rw [List.foldl_cons]
    by_cases hc : pageHeight < measure (acc ++ e) ∧ trimEmpty acc = false
    · rw [show splitStep measure pageHeight t (pages, acc, pn) e
          = (pages ++ [mkPage pages.length acc t pn], e, pn + 1) from by
        simp only [splitStep]; rw [if_pos hc]]
      exact ih hes _ e _ (Or.inr he)
    · rw [show splitStep measure pageHeight t (pages, acc, pn) e
          = (pages, acc ++ e, pn) from by
        simp only [splitStep]; rw [if_neg hc]]
      refine ih hes _ (acc ++ e) _ (Or.inr ?_)
      rw [trimEmpty_append, he, Bool.and_false]

lemma splitChapter_markup (measure : String → Nat) (pageHeight : Nat)
    (pages0 : List EpubPage) (ch : EpubChapter)
    (h1 : ch.blocks ≠ []) (h2 : ∀ b ∈ ch.blocks, trimEmpty b = false) :
    pagesMarkup (splitChapter measure pageHeight pages0 ch)
      = pagesMarkup pages0 ++ concatAll ch.blocks := by
  have he : chapterElements ch = ch.blocks := by
    simp [chapterElements, h1]
  have hm := splitFold_markup measure pageHeight ch.title ch.blocks pages0 "" 1
  have hb := splitFold_blank measure pageHeight ch.title ch.blocks h2 pages0 "" 1 (Or.inl rfl)
  unfold splitChapter
  rw [he]
  rcases hfold : ch.blocks.foldl (splitStep measure pageHeight ch.title) (pages0, "", 1)
    with ⟨pages', acc', pn'⟩
  rw [hfold] at hm hb
  simp only [String.empty_append] at hm
  by_cases hacc : trimEmpty acc' = false
  · rw [show flushChapter (pages', acc', pn') ch.title
        = pages' ++ [mkPage pages'.length acc' ch.title pn'] from by
      simp only [flushChapter]; rw [if_pos hacc]]
    rw [pagesMarkup_append]
    simpa [pagesMarkup, mkPage, concatAll, String.append_empty] using hm
  · rw [show flushChapter (pages', acc', pn') ch.title = pages' from by
      simp only [flushChapter]; rw [if_neg hacc]]
    rcases hb with h0 | hbf
    · have h0' : acc' = "" := h0
      rw [h0', String.append_empty] at hm
      exact hm
    · exact absurd hbf hacc

lemma splitIntoPages_single_element (measure : String → Nat) (pageHeight : Nat)
    (ch : EpubChapter) (b : String) (he : chapterElements ch = [b])
    (hb : trimEmpty b = false) :
    splitIntoPages measure pageHeight [ch] = [mkPage 0 b ch.title 1] := by
  unfold splitIntoPages
  rw [List.foldl_cons, List.foldl_nil]
  unfold splitChapter
  rw [he, List.foldl_cons, List.foldl_nil]
  have hcond : ¬(pageHeight < measure (("" : String) ++ b) ∧ trimEmpty "" = false) := by
    rintro ⟨-, h2⟩
    exact absurd h2 (by decide)
  rw [show splitStep measure pageHeight ch.title ([], "", 1) b = ([], "" ++ b, 1) from by
    simp only [splitStep]; rw [if_neg hcond]]
  rw [show (("" : String) ++ b) = b from String.empty_append b]
  simp only [flushChapter]
  rw [if_pos hb]
  simp [mkPage]

lemma extractChapters_eq_filterMap (basePath : String) (manifest : List ManifestItem)
    (archive : Archive) (spine : List SpineItem) :
    extractChapters basePath manifest archive spine
      = spine.filterMap (resolveSpineItem basePath manifest archive) := by
  suffices h : ∀ (sp : List SpineItem) (acc : List EpubChapter),
      sp.foldl
          (fun acc s =>
            match resolveSpineItem basePath manifest archive s with
            | some ch => acc ++ [ch]
            | none => acc)
          acc
        = acc ++ sp.filterMap (resolveSpineItem basePath manifest archive) by
    simpa [extractChapters] using h spine []
  intro sp
  induction sp with
  | nil => intro acc; simp
  | cons s ss ih =>
    intro acc
    rw [List.foldl_cons]
    cases hres : resolveSpineItem basePath manifest archive s with
    | none => simp [hres, ih, List.filterMap_cons]
    | some ch => simp [hres, ih, List.filterMap_cons]

lemma ratFloor_eq_intFloor (q : ℚ) : Rat.floor q = ⌊q⌋ := rfl

/-- C1: for every chapter sequence (each chapter holding at least one
block-level element, each block's outerHTML markup not whitespace-only, as
serialized element markup never is) and for every layout configuration,
i.e. every measurement function and page-height budget, concatenating the
content of all pages produced by `splitIntoPages`, in order, reproduces the
markup of the chapters' blocks, in order, exactly once: no block is dropped
and no block is duplicated. -/
theorem splitIntoPages_blockRoundTrip (measure : String → Nat) (pageHeight : Nat)
    (chapters : List EpubChapter)
    (hch : ∀ ch ∈ chapters, ch.blocks ≠ [] ∧ ∀ b ∈ ch.blocks, trimEmpty b = false) :
    pagesMarkup (splitIntoPages measure pageHeight chapters) = blocksMarkup chapters := by
  suffices h : ∀ chs : List EpubChapter,
      (∀ ch ∈ chs, ch.blocks ≠ [] ∧ ∀ b ∈ ch.blocks, trimEmpty b = false) →
      ∀ pages0 : List EpubPage,
        pagesMarkup (chs.foldl (splitChapter measure pageHeight) pages0)
          = pagesMarkup pages0 ++ blocksMarkup chs by
    have h2 := h chapters hch []
    unfold splitIntoPages
    rw [h2]
    simp [pagesMarkup, concatAll, String.empty_append]
  intro chs
  induction chs with
  | nil =>
    intro _ pages0
    simp [blocksMarkup, concatAll, String.append_empty]
  | cons ch rest ih =>
    intro hall pages0
    rw [List.foldl_cons,
      ih (fun c hc => hall c (by simp [hc])) (splitChapter measure pageHeight pages0 ch),
      splitChapter_markup measure pageHeight pages0 ch (hall ch (by simp)).1
        (hall ch (by simp)).2]
    simp [blocksMarkup, concatAll, String.append_assoc]

/-- Witness for the round trip at a concrete book: one chapter of two
paragraph blocks, measured by string length against a budget that forces a
page break between them. -/
theorem splitIntoPages_blockRoundTrip_witness :
    pagesMarkup (splitIntoPages String.length 9 [⟨"ch", "x", ["<p>a</p>", "<p>b</p>"]⟩])
      = blocksMarkup [⟨"ch", "x", ["<p>a</p>", "<p>b</p>"]⟩] :=
  splitIntoPages_blockRoundTrip String.length 9 _ (by decide)

/-- C5: a chapter whose sole block measures over the page-height budget
still yields exactly one page containing that block, and in general a page
is closed only when the measured height of the tentative accumulator
exceeds the budget AND the accumulator was not whitespace-only before the
block was appended — the first block of a page is never split out. -/
theorem splitIntoPages_oversizedBlock (measure : String → Nat) (pageHeight : Nat)
    (title content b t : String) (st : List EpubPage × String × Nat) (e : String)
    (hb : trimEmpty b = false) (hover : pageHeight < measure b) :
    splitIntoPages measure pageHeight [⟨title, content, [b]⟩] = [mkPage 0 b title 1]
      ∧ ((splitStep measure pageHeight t st e).1 ≠ st.1 →
          pageHeight < measure (st.2.1 ++ e) ∧ trimEmpty st.2.1 = false) := by
  constructor
  · exact splitIntoPages_single_element measure pageHeight ⟨title, content, [b]⟩ b
      (by simp [chapterElements]) hb
  · rcases st with ⟨pages, acc, pn⟩
    intro hne
    by_cases hc : pageHeight < measure (acc ++ e) ∧ trimEmpty acc = false
    · exact hc
    · exfalso
      apply hne
      show (splitStep measure pageHeight t (pages, acc, pn) e).1 = pages
      rw [show splitStep measure pageHeight t (pages, acc, pn) e = (pages, acc ++ e, pn)
        from by simp only [splitStep]; rw [if_neg hc]]

/-- Witness: a 10-character paragraph block against a budget of 3 with
string-length measurement gives one page holding the whole block. -/
theorem splitIntoPages_oversizedBlock_witness :
    splitIntoPages String.length 3 [⟨"ch", "", ["<p>abc</p>"]⟩]
      = [mkPage 0 "<p>abc</p>" "ch" 1] :=
  (splitIntoPages_oversizedBlock String.length 3 "ch" "" "<p>abc</p>" "t" ([], "", 1) ""
    (by decide) (by decide)).1

/-- C7 counterexample: a chapter with no block-level elements and empty
content does not produce zero pages — `splitIntoPages` emits one page
holding the serialized empty wrapper div, for instance under a measurement
that reports height 0 and a budget of 100. -/
theorem emptyChapter_phantomPage :
    splitIntoPages (fun _ => 0) 100 [⟨"Chapter 1", "", []⟩]
        = [mkPage 0 "<div></div>" "Chapter 1" 1]
      ∧ splitIntoPages (fun _ => 0) 100 [⟨"Chapter 1", "", []⟩] ≠ [] := by
  exact ⟨rfl, by decide⟩

/-- C7 amended: for every measurement function, budget and chapter title, a
chapter with no block-level elements and empty content produces exactly one
page, whose content is the empty content wrapped in the measuring div
(`<div></div>`); such a chapter is not skipped. -/
theorem emptyChapter_wrapperPage (measure : String → Nat) (pageHeight : Nat)
    (title : String) :
    splitIntoPages measure pageHeight [⟨title, "", []⟩]
      = [mkPage 0 "<div></div>" title 1] :=
  splitIntoPages_single_element measure pageHeight ⟨title, "", []⟩ "<div></div>" rfl
    (by decide)

/-- C3: `goToNext` advances the index by exactly the mode's increment (1 in
single-page mode, 2 in double-page mode) whenever the target index stays
within bounds and is a no-op otherwise; `goToPrev` retreats by the same
amount whenever the target stays at least 0 and is a no-op otherwise; both
results stay within the valid index range; in a 10-page book at index 3,
next gives 4 in single-page and 5 in double-page mode, and at index 9 next
is a no-op. -/
theorem goToNext_goToPrev_spec (doublePageView : Bool) (pageCount currentPageIndex : Nat) :
    ((currentPageIndex : Int) + navIncrement doublePageView ≤ (pageCount : Int) - 1 →
        goToNext doublePageView pageCount currentPageIndex
          = currentPageIndex + navIncrement doublePageView)
      ∧ ((pageCount : Int) - 1 < (currentPageIndex : Int) + navIncrement doublePageView →
          goToNext doublePageView pageCount currentPageIndex = currentPageIndex)
      ∧ (currentPageIndex ≤ pageCount - 1 →
          goToNext doublePageView pageCount currentPageIndex ≤ pageCount - 1)
      ∧ (navIncrement doublePageView ≤ currentPageIndex →
          goToPrev doublePageView currentPageIndex
            = currentPageIndex - navIncrement doublePageView)
      ∧ (currentPageIndex < navIncrement doublePageView →
          goToPrev doublePageView currentPageIndex = currentPageIndex)
      ∧ goToPrev doublePageView currentPageIndex ≤ currentPageIndex
      ∧ goToNext false 10 3 = 4 ∧ goToNext true 10 3 = 5
      ∧ goToNext false 10 9 = 9 ∧ goToNext true 10 9 = 9
      ∧ goToPrev false 0 = 0 ∧ goToPrev true 0 = 0 := by
  refine ⟨?_, ?_, ?_, ?_, ?_, ?_, by decide, by decide, by decide, by decide,
    by decide, by decide⟩
  · intro h
    unfold goToNext
    rw [if_pos h]
    omega
  · intro h
    unfold goToNext
    rw [if_neg (not_le.mpr h)]
  · intro h
    unfold goToNext
    split_ifs with hg
    · omega
    · exact h
  · intro h
    unfold goToPrev
    rw [if_pos (show (0 : Int) ≤ (currentPageIndex : Int) - navIncrement doublePageView
      by omega)]
    omega
  · intro h
    unfold goToPrev
    rw [if_neg (show ¬(0 : Int) ≤ (currentPageIndex : Int) - navIncrement doublePageView
      by omega)]
  · unfold goToPrev
    split_ifs with hg
    · omega
    · exact Nat.le_refl _

/-- Witness: in a 16-page book at index 4 in double-page mode, next lands
on 6 and prev on 2. -/
theorem goToNext_goToPrev_spec_witness :
    goToNext true 16 4 = 4 + navIncrement true ∧ goToPrev true 4 = 4 - navIncrement true :=
  ⟨(goToNext_goToPrev_spec true 16 4).1 (by decide),
   (goToNext_goToPrev_spec true 16 4).2.2.2.1 (by decide)⟩

/-- C10: checking the double-page box at an odd index steps the index back
one page, yielding an even index (clamped at 0); checking it at an even
index, or unchecking it, leaves the index unchanged; immediately after
checking, the index is always even. -/
theorem doublePageToggle_spec (checked : Bool) (i : Nat) :
    (checked = true → i % 2 = 1 →
        doublePageToggleIndex checked i = i - 1 ∧ doublePageToggleIndex checked i % 2 = 0)
      ∧ (checked = true → i % 2 = 0 → doublePageToggleIndex checked i = i)
      ∧ (checked = false → doublePageToggleIndex checked i = i)
      ∧ (checked = true → doublePageToggleIndex checked i % 2 = 0) := by
  refine ⟨?_, ?_, ?_, ?_⟩
  · intro hc hodd
    subst hc
    unfold doublePageToggleIndex
    split_ifs with h
    · constructor <;> omega
    · exact absurd ⟨rfl, by omega⟩ h
  · intro hc heven
    subst hc
    unfold doublePageToggleIndex
    split_ifs with h
    · exact absurd heven h.2
    · rfl
  · intro hc
    subst hc
    unfold doublePageToggleIndex
    rw [if_neg (fun hcc => absurd hcc.1 (by decide))]
  · intro hc
    subst hc
    unfold doublePageToggleIndex
    split_ifs with hcond
    · have := hcond.2
      omega
    · have hz : ¬(i % 2 ≠ 0) := fun hne => hcond ⟨rfl, hne⟩
      omega

/-- Witness: checking the box at index 5 lands on the even index 4. -/
theorem doublePageToggle_spec_witness :
    doublePageToggleIndex true 5 = 5 - 1 ∧ doublePageToggleIndex true 5 % 2 = 0 :=
  (doublePageToggle_spec true 5).1 rfl (by decide)

/-- C9: every sink invocation carries a fractional progress inside the unit
interval and a 1-based page number of at least 1, and no invocation happens
at all when the page count is zero or when no callback was provided. -/
theorem saveProgressCall_bounds (hasCallback : Bool) (pageIndex totalPages : Nat)
    (p : ProgressPayload) :
    (saveProgressCall hasCallback pageIndex totalPages = some p →
        0 ≤ p.progress ∧ p.progress ≤ 1 ∧ 1 ≤ p.currentPage)
      ∧ (totalPages = 0 → saveProgressCall hasCallback pageIndex totalPages = none)
      ∧ (hasCallback = false → saveProgressCall hasCallback pageIndex totalPages = none) := by
  refine ⟨?_, ?_, ?_⟩
  · intro hsome
    unfold saveProgressCall at hsome
    by_cases hg : hasCallback = false ∨ totalPages = 0
    · rw [if_pos hg] at hsome
      cases hsome
    · rw [if_neg hg] at hsome
      have hp : progressPayload pageIndex totalPages = p := Option.some_inj.mp hsome
      rw [← hp]
      unfold progressPayload jsClamp01
      refine ⟨le_max_left 0 _, max_le zero_le_one (min_le_left 1 _), Nat.le_add_left 1 _⟩
  · intro h0
    unfold saveProgressCall
    rw [if_pos (Or.inr h0)]
  · intro hf
    unfold saveProgressCall
    rw [if_pos (Or.inl hf)]

/-- Witness: a call at page index 4 of 10 pages yields an in-range payload;
with zero pages or no callback, no call is made. -/
theorem saveProgressCall_bounds_witness :
    (0 ≤ (progressPayload 4 10).progress ∧ (progressPayload 4 10).progress ≤ 1
        ∧ 1 ≤ (progressPayload 4 10).currentPage)
      ∧ saveProgressCall true 4 0 = none ∧ saveProgressCall false 4 10 = none :=
  ⟨(saveProgressCall_bounds true 4 10 (progressPayload 4 10)).1 rfl,
   (saveProgressCall_bounds true 4 0 (progressPayload 4 0)).2.1 rfl,
   (saveProgressCall_bounds false 4 10 (progressPayload 4 10)).2.2 rfl⟩

/-- C4 counterexample: at page index 4 of a 10-page sequence the sink
receives fractional progress 2/5 = pageIndex/pageCount, not
(pageIndex+1)/pageCount = 1/2 as claimed. -/
theorem saveProgress_fraction_counterexample :
    saveProgressCall true 4 10 = some (progressPayload 4 10)
      ∧ (progressPayload 4 10).progress = 2/5
      ∧ ((4 + 1 : ℚ)/10) ≠ 2/5 := by
  refine ⟨rfl, ?_, by norm_num⟩
  simp only [progressPayload, jsClamp01]
  norm_num

/-- C4 amended: on every page change at index pageIndex of totalPages pages
(pageIndex ≤ totalPages, totalPages nonzero) with a callback present, the
sink receives the fractional value pageIndex/totalPages together with the
1-based page number pageIndex+1. -/
theorem saveProgress_fraction (pageIndex totalPages : Nat)
    (h0 : totalPages ≠ 0) (hle : pageIndex ≤ totalPages) :
    saveProgressCall true pageIndex totalPages
      = some ⟨(pageIndex : ℚ) / (totalPages : ℚ), "page-" ++ toString (pageIndex + 1),
          pageIndex + 1⟩ := by
  have hposQ : (0 : ℚ) < (totalPages : ℚ) := by
    exact_mod_cast Nat.pos_of_ne_zero h0
  have h1 : (0 : ℚ) ≤ (pageIndex : ℚ) / (totalPages : ℚ) := by positivity
  have h2 : (pageIndex : ℚ) / (totalPages : ℚ) ≤ 1 := by
    rw [div_le_one hposQ]
    exact_mod_cast hle
  unfold saveProgressCall
  rw [if_neg (by simp [h0])]
  unfold progressPayload jsClamp01
  rw [min_eq_right h2, max_eq_right h1]

/-- Witness for the amended C4 claim at page index 4 of 10 pages. -/
theorem saveProgress_fraction_witness :
    saveProgressCall true 4 10
      = some ⟨((4 : Nat) : ℚ) / ((10 : Nat) : ℚ), "page-" ++ toString (4 + 1), 4 + 1⟩ :=
  saveProgress_fraction 4 10 (by decide) (by decide)

/-- C6: the initial page index after a successful open is in the valid
range whenever at least one page exists; a saved page number larger than 1
and within the page count puts the reader exactly at that page; with no
saved page number and positive saved progress the index is the clamped
floor of progress times the page count; a book with saved progress 1/2, no
saved page, and 20 pages starts at index 10. -/
theorem initialPageIndex_spec (book : BookRecord) (pageCount : Nat) :
    (1 ≤ pageCount →
        0 ≤ initialPageIndex book pageCount
          ∧ initialPageIndex book pageCount ≤ (pageCount : Int) - 1)
      ∧ (1 < book.currentPage → book.currentPage ≤ pageCount →
          initialPageIndex book pageCount = (book.currentPage : Int) - 1)
      ∧ (book.currentPage ≤ 1 → 0 < book.progress →
          initialPageIndex book pageCount
            = max 0 (min ⌊book.progress * (pageCount : ℚ)⌋ ((pageCount : Int) - 1)))
      ∧ initialPageIndex ⟨0, 1/2⟩ 20 = 10 := by
  refine ⟨?_, ?_, ?_, ?_⟩
  · intro hn
    unfold initialPageIndex
    split_ifs <;> constructor <;> omega
  · intro h1 h2
    unfold initialPageIndex
    rw [if_pos h1]
    omega
  · intro h1 h2
    unfold initialPageIndex
    rw [if_neg (by omega), if_pos h2, ratFloor_eq_intFloor]
  · simp only [initialPageIndex, ratFloor_eq_intFloor]
    norm_num

/-- Witness: the range bound at the scenario book, and the saved-page
branch at a book saved on page 5 remapped against 16 pages. -/
theorem initialPageIndex_spec_witness :
    (0 ≤ initialPageIndex ⟨0, 1/2⟩ 20 ∧ initialPageIndex ⟨0, 1/2⟩ 20 ≤ (20 : Int) - 1)
      ∧ initialPageIndex ⟨5, 2/5⟩ 16 = ((5 : Nat) : Int) - 1 :=
  ⟨(initialPageIndex_spec ⟨0, 1/2⟩ 20).1 (by decide),
   (initialPageIndex_spec ⟨5, 2/5⟩ 16).2.1 (by decide) (by decide)⟩

/-- C2: evaluation of the settings-change path at a failing input. A
session opened with no saved state (saved page number 1, saved progress 0)
and read to index 4 of 10 pages re-initializes after a layout change that
yields 16 pages: `initReader` re-runs in full (re-fetching and re-parsing
the archive) and recomputes the index from the unchanged memoized book
prop, giving index 0 — not 8, and not within one page of the live
fractional progress: |0/16 - 4/10| > 1/16. -/
theorem settingsChange_staleIndex :
    initialPageIndex ⟨1, 0⟩ 16 = 0
      ∧ ¬(|((0 : ℚ))/16 - 4/10| ≤ 1/16) := by
  constructor
  · unfold initialPageIndex
    norm_num
  · rw [show ((0 : ℚ)/16 - 4/10) = -(2/5) by norm_num, abs_neg,
      abs_of_nonneg (by norm_num : (0:ℚ) ≤ 2/5)]
    norm_num

/-- C8: a spine entry that fails to resolve (missing manifest item, missing
href, missing archive entry, or failed chapter read) is skipped without
affecting the other entries; the parse fails with the no-readable-chapters
error exactly when the extracted chapter sequence is empty; an archive with
3 spine items of which one references a manifest item without an href
yields 2 chapters and the load succeeds. -/
theorem parseEpub_skipSpec (basePath : String) (manifest : List ManifestItem)
    (archive : Archive) (spine s1 s2 : List SpineItem) (s : SpineItem)
    (hs : resolveSpineItem basePath manifest archive s = none) :
    extractChapters basePath manifest archive (s1 ++ s :: s2)
        = extractChapters basePath manifest archive (s1 ++ s2)
      ∧ (parseEpubChapters basePath manifest archive spine
            = Except.error "No readable chapters found in EPUB"
          ↔ extractChapters basePath manifest archive spine = [])
      ∧ parseEpubChapters "OEBPS/"
          [⟨some "a", some "c1.xhtml"⟩, ⟨some "b", none⟩, ⟨some "c", some "c3.xhtml"⟩]
          [("OEBPS/c1.xhtml", EntryRead.ok ⟨"One", "<p>1</p>", ["<p>1</p>"]⟩),
            ("OEBPS/c3.xhtml", EntryRead.ok ⟨"Three", "<p>3</p>", ["<p>3</p>"]⟩)]
          [⟨some "a"⟩, ⟨some "b"⟩, ⟨some "c"⟩]
        = Except.ok [⟨"One", "<p>1</p>", ["<p>1</p>"]⟩, ⟨"Three", "<p>3</p>", ["<p>3</p>"]⟩]
      := by
  refine ⟨?_, ?_, by rfl⟩
  · rw [extractChapters_eq_filterMap, extractChapters_eq_filterMap,
      List.filterMap_append, List.filterMap_append, List.filterMap_cons, hs]
  · unfold parseEpubChapters
    split_ifs with h
    · simp [h]
    · simp [h]

/-- Witness: a spine item whose idref matches nothing in an empty manifest
is dropped from the extraction. -/
theorem parseEpub_skipSpec_witness :
    extractChapters "" [] [] ([] ++ ⟨some "x"⟩ :: []) = extractChapters "" [] [] ([] ++ []) :=
  (parseEpub_skipSpec "" [] [] [] [] [] ⟨some "x"⟩ rfl).1

end Fumikari
